import Mathlib

set_option autoImplicit false

/-!
Verification of the SQLite bootstrap script `src/database/init_db.py` of the
simple-to-do-list repository.

The script's operations are embedded as executable Lean definitions:

* `ensureSchemaRun` — the schema convergence routine `ensure_schema`
  (five `CREATE ... IF NOT EXISTS` statements followed by `conn.commit()`);
* `metadataUpsert` — the four `INSERT OR REPLACE INTO app_info` statements
  of `main`;
* `utc_now_iso8601` — the timestamp helper;
* `runMain` — the `main` driver (pre-flight probe, convergence, upsert,
  and the two non-fatal artifact writes).

The store is a value of type `DB`: its catalog of schema objects
(`sqlite_master`) together with the rows of the three tables the script
touches.  SQLite's `CREATE ... IF NOT EXISTS` semantics, including the shared
table/index namespace and the errors raised when a name is held by an object
of the other kind, are modelled in `execStmt`.
-/

/-- A SQLite storage value, as far as this schema needs one:
NULL, an INTEGER, or a TEXT string. -/
inductive SQLValue
  | null
  | int (i : Int)
  | text (s : String)
deriving DecidableEq

/-- A column `DEFAULT` clause appearing in the script's DDL: a literal
integer (`DEFAULT 0`) or `DEFAULT CURRENT_TIMESTAMP`. -/
inductive DefaultExpr
  | intVal (i : Int)
  | currentTimestamp
deriving DecidableEq

/-- One column of a `CREATE TABLE` statement, carrying exactly the
constraints that occur in the script's DDL strings. -/
structure ColumnDef where
  cname : String
  ctype : String
  notNull : Bool
  uniq : Bool
  pkAutoinc : Bool
  dflt : Option DefaultExpr
deriving DecidableEq

/-- Columns of `app_info` (init_db.py lines 68-77). -/
def appInfoCols : List ColumnDef :=
  [⟨"id", "INTEGER", false, false, true, none⟩,
   ⟨"key", "TEXT", true, true, false, none⟩,
   ⟨"value", "TEXT", false, false, false, none⟩,
   ⟨"created_at", "TIMESTAMP", false, false, false, some .currentTimestamp⟩]

/-- Columns of `users` (init_db.py lines 79-88). -/
def usersCols : List ColumnDef :=
  [⟨"id", "INTEGER", false, false, true, none⟩,
   ⟨"username", "TEXT", true, true, false, none⟩,
   ⟨"email", "TEXT", true, true, false, none⟩,
   ⟨"created_at", "TIMESTAMP", false, false, false, some .currentTimestamp⟩]

/-- Columns of `tasks`, from `tasks_table_ddl` (init_db.py lines 45-54). -/
def tasksCols : List ColumnDef :=
  [⟨"id", "INTEGER", false, false, true, none⟩,
   ⟨"title", "TEXT", true, false, false, none⟩,
   ⟨"notes", "TEXT", false, false, false, none⟩,
   ⟨"completed", "INTEGER", true, false, false, some (.intVal 0)⟩,
   ⟨"created_at", "TEXT", true, false, false, none⟩,
   ⟨"updated_at", "TEXT", true, false, false, none⟩]

/-- An entry of the store's catalog (`sqlite_master`): a table or an index. -/
inductive SchemaObject
  | table (name : String) (cols : List ColumnDef)
  | index (name : String) (onTable : String) (cols : List String)
deriving DecidableEq

/-- The catalog name of a schema object.  Tables and indexes share one
namespace in SQLite. -/
def SchemaObject.objName : SchemaObject → String
  | .table n _ => n
  | .index n _ _ => n

/-- One row of `app_info`: `(id, key, value, created_at)`. -/
structure AppInfoRow where
  id : Nat
  key : String
  value : SQLValue
  created_at : String
deriving DecidableEq

/-- The store: the catalog plus the rows of the tables the script touches.
`appInfoSeq` is the `sqlite_sequence` counter of the AUTOINCREMENT column of
`app_info` (the largest id ever handed out). -/
structure DB where
  objects : List SchemaObject
  tasksRows : List (List SQLValue)
  usersRows : List (List SQLValue)
  appInfoRows : List AppInfoRow
  appInfoSeq : Nat
deriving DecidableEq

/-- A store with no schema objects and no rows: what `sqlite3.connect` on a
non-existent file yields. -/
def DB.empty : DB := ⟨[], [], [], [], 0⟩

/-- Catalog lookup by name (shared table/index namespace). -/
def DB.findObj (db : DB) (n : String) : Option SchemaObject :=
  db.objects.find? (fun o => o.objName == n)

/-- Does the catalog hold a table named `n`? -/
def DB.isTableNamed (db : DB) (n : String) : Bool :=
  match db.findObj n with
  | some (.table _ _) => true
  | _ => false

/-- Does the catalog hold an index named `n`? -/
def DB.isIndexNamed (db : DB) (n : String) : Bool :=
  match db.findObj n with
  | some (.index _ _ _) => true
  | _ => false

/-- Is `n` a SQLite-internal name (`sqlite_%`)?  The statistics query in
`main` filters these out (init_db.py lines 153-155). -/
def isSystemName (n : String) : Bool :=
  decide (n.data.take 7 = "sqlite_".data)

/-- The non-system table names of the catalog, in catalog order: the result
of `SELECT ... FROM sqlite_master WHERE type='table' AND name NOT LIKE
'sqlite_%'`. -/
def DB.nonSystemTables (db : DB) : List String :=
  db.objects.filterMap fun o =>
    match o with
    | .table m _ => if isSystemName m then none else some m
    | .index _ _ _ => none

/-- A SQL statement, in the fragment this script could issue.  The
destructive forms are included so that non-destructiveness of the script is
a meaningful property. -/
inductive Stmt
  | createTableIfNotExists (name : String) (cols : List ColumnDef)
  | createIndexIfNotExists (name : String) (onTable : String) (cols : List String)
  | dropTable (name : String)
  | dropIndex (name : String)
  | deleteFrom (name : String)
deriving DecidableEq

/-- A destructive statement: `DROP TABLE`, `DROP INDEX`, or `DELETE FROM`
(SQLite has no `TRUNCATE`; its spelling is `DELETE FROM`). -/
def Stmt.isDestructive : Stmt → Bool
  | .dropTable _ => true
  | .dropIndex _ => true
  | .deleteFrom _ => true
  | _ => false

/-- A create-if-absent statement (table or index). -/
def Stmt.isCreateIfAbsent : Stmt → Bool
  | .createTableIfNotExists _ _ => true
  | .createIndexIfNotExists _ _ _ => true
  | _ => false

/-- Result of executing statements against the store: the new store, or the
engine error message. -/
inductive DBResult
  | ok (db : DB)
  | error (msg : String)
deriving DecidableEq

/-- SQLite semantics of one statement.

For `CREATE TABLE IF NOT EXISTS n`: a no-op if a table named `n` exists
(whatever its columns — the routine never reconciles divergent definitions);
an error if the name is held by an index; otherwise the table is appended to
the catalog.  For `CREATE INDEX IF NOT EXISTS n ON t`: a no-op if an index
named `n` exists; an error if the name is held by a table; otherwise an
error if `t` is not a table, else the index is appended.  The destructive
statements remove objects or rows; the script never issues them. -/
def execStmt (s : Stmt) (db : DB) : DBResult :=
  match s with
  | .createTableIfNotExists n cols =>
    match db.findObj n with
    | some (.table _ _) => .ok db
    | some (.index _ _ _) => .error ("object name reserved by index: " ++ n)
    | none => .ok { db with objects := db.objects ++ [.table n cols] }
  | .createIndexIfNotExists n tbl cols =>
    match db.findObj n with
    | some (.index _ _ _) => .ok db
    | some (.table _ _) => .error ("there is already a table named " ++ n)
    | none =>
      if db.isTableNamed tbl then
        .ok { db with objects := db.objects ++ [.index n tbl cols] }
      else .error ("no such table: " ++ tbl)
  | .dropTable n =>
    .ok { db with
          objects := db.objects.filter (fun o => o.objName != n),
          tasksRows := if n == "tasks" then [] else db.tasksRows,
          usersRows := if n == "users" then [] else db.usersRows,
          appInfoRows := if n == "app_info" then [] else db.appInfoRows }
  | .dropIndex n =>
    .ok { db with objects := db.objects.filter (fun o => o.objName != n) }
  | .deleteFrom n =>
    .ok { db with
          tasksRows := if n == "tasks" then [] else db.tasksRows,
          usersRows := if n == "users" then [] else db.usersRows,
          appInfoRows := if n == "app_info" then [] else db.appInfoRows }

/-- `CREATE TABLE IF NOT EXISTS app_info ...` (init_db.py lines 68-77). -/
def stmtCreateAppInfo : Stmt := .createTableIfNotExists "app_info" appInfoCols

/-- `CREATE TABLE IF NOT EXISTS users ...` (init_db.py lines 79-88). -/
def stmtCreateUsers : Stmt := .createTableIfNotExists "users" usersCols

/-- `CREATE TABLE IF NOT EXISTS tasks ...` (init_db.py line 91, via
`tasks_table_ddl`). -/
def stmtCreateTasks : Stmt := .createTableIfNotExists "tasks" tasksCols

/-- `CREATE INDEX IF NOT EXISTS idx_tasks_completed ON tasks(completed)`
(init_db.py line 94). -/
def stmtIdxCompleted : Stmt :=
  .createIndexIfNotExists "idx_tasks_completed" "tasks" ["completed"]

/-- `CREATE INDEX IF NOT EXISTS idx_tasks_updated_at ON tasks(updated_at)`
(init_db.py line 95). -/
def stmtIdxUpdatedAt : Stmt :=
  .createIndexIfNotExists "idx_tasks_updated_at" "tasks" ["updated_at"]

/-- The statements `ensure_schema` issues, in source order. -/
def ensureSchemaStmts : List Stmt :=
  [stmtCreateAppInfo, stmtCreateUsers, stmtCreateTasks,
   stmtIdxCompleted, stmtIdxUpdatedAt]

/-- The schema convergence routine `ensure_schema` (init_db.py lines 58-97):
the five statements of `ensureSchemaStmts` executed in order on one
connection, each aborting the routine on error, then `conn.commit()` (which
changes no state in this value-level view of the run's outcome). -/
def ensureSchemaRun (db : DB) : DBResult :=
  match execStmt stmtCreateAppInfo db with
  | .error e => .error e
  | .ok db1 =>
    match execStmt stmtCreateUsers db1 with
    | .error e => .error e
    | .ok db2 =>
      match execStmt stmtCreateTasks db2 with
      | .error e => .error e
      | .ok db3 =>
        match execStmt stmtIdxCompleted db3 with
        | .error e => .error e
        | .ok db4 =>
          match execStmt stmtIdxUpdatedAt db4 with
          | .error e => .error e
          | .ok db5 => .ok db5

/-- Running `ensure_schema` `n` times in sequence against the same store,
stopping at the first error. -/
def ensureSchemaN : Nat → DB → DBResult
  | 0, db => .ok db
  | n + 1, db =>
    match ensureSchemaRun db with
    | .error e => .error e
    | .ok db' => ensureSchemaN n db'

/-- The five schema objects that convergence targets are all present, with
the right kinds. -/
def schemaConverged (db : DB) : Bool :=
  db.isTableNamed "app_info" && db.isTableNamed "users" &&
  db.isTableNamed "tasks" && db.isIndexNamed "idx_tasks_completed" &&
  db.isIndexNamed "idx_tasks_updated_at"

/-- The store produced by one convergence run on an empty store. -/
def convergedFromEmpty : DB :=
  ⟨[.table "app_info" appInfoCols, .table "users" usersCols,
    .table "tasks" tasksCols,
    .index "idx_tasks_completed" "tasks" ["completed"],
    .index "idx_tasks_updated_at" "tasks" ["updated_at"]],
   [], [], [], 0⟩

example : ensureSchemaRun DB.empty = .ok convergedFromEmpty := by decide
example : ensureSchemaRun convergedFromEmpty = .ok convergedFromEmpty := by decide

/-!
## The driver's execution of the DDL statements

The CPython `sqlite3` driver with its default (legacy) transaction control
opens an implicit transaction only before DML statements (`INSERT`, `UPDATE`,
`DELETE`, `REPLACE`).  `main` executes nothing but a `PRAGMA` before calling
`ensure_schema`, so no transaction is open when the five `CREATE` statements
run: each DDL statement executes in autocommit mode and is durably committed
as soon as it succeeds, and the `conn.commit()` at the end of
`ensure_schema` finds no open transaction.  `runDDLAutocommit` models this
run: its first component is the committed store when the run stops, its
second whether every statement succeeded.  `failAt` is an engine-failure
oracle (disk full, corruption, ...) naming the position, counted from `k`,
whose statement the engine rejects. -/
def runDDLAutocommit : List Stmt → Option Nat → Nat → DB → DB × Bool
  | [], _, _, db => (db, true)
  | s :: rest, failAt, k, db =>
    if failAt = some k then (db, false)
    else
      match execStmt s db with
      | .error _ => (db, false)
      | .ok db' => runDDLAutocommit rest failAt (k + 1) db'

/-!
## The metadata upsert of `main`
-/

/-- `INSERT OR REPLACE INTO app_info (key, value) VALUES (?, ?)`
(init_db.py lines 130-145).  `key` is UNIQUE, so a conflicting row is
deleted and the new row inserted: the AUTOINCREMENT column hands out
`appInfoSeq + 1` as the fresh id, and the omitted `created_at` column takes
its `CURRENT_TIMESTAMP` default, `now`. -/
def insertOrReplaceAppInfo (now : String) (db : DB) (k v : String) : DB :=
  { db with
    appInfoRows := db.appInfoRows.filter (fun r => r.key != k) ++
                   [⟨db.appInfoSeq + 1, k, .text v, now⟩],
    appInfoSeq := db.appInfoSeq + 1 }

/-- The four fixed upserts of `main` (init_db.py lines 129-146), in source
order, followed by `conn.commit()`. -/
def metadataUpsert (now : String) (db : DB) : DB :=
  insertOrReplaceAppInfo now
    (insertOrReplaceAppInfo now
      (insertOrReplaceAppInfo now
        (insertOrReplaceAppInfo now db "project_name" "database")
        "version" "0.1.0")
      "author" "John Doe")
    "description" ""

/-- The `app_info` rows holding key `k`. -/
def rowsForKey (rows : List AppInfoRow) (k : String) : List AppInfoRow :=
  rows.filter (fun r => r.key == k)

/-!
## Row acceptance for an insert into `tasks`

SQLite enforces, per column: NOT NULL (with an omitted column taking its
DEFAULT, or NULL when it has none; an `INTEGER PRIMARY KEY` column accepts
NULL, which the engine replaces with a fresh rowid).  The `tasks` DDL has no
CHECK constraint and type affinity never rejects a value, so these NOT NULL
checks are the whole acceptance condition for a row's values. -/

/-- The value a column receives: the supplied value, or the DEFAULT when the
column is omitted (`CURRENT_TIMESTAMP` renders the insertion instant). -/
def resolveInsertValue (now : String) (c : ColumnDef) (v : Option SQLValue) : SQLValue :=
  match v with
  | some x => x
  | none =>
    match c.dflt with
    | some (.intVal i) => .int i
    | some .currentTimestamp => .text now
    | none => .null

/-- Does the column accept the (resolved) value?  NULL is rejected by a
NOT NULL column; an `INTEGER PRIMARY KEY AUTOINCREMENT` column accepts NULL
(the engine substitutes a fresh rowid); everything else is accepted. -/
def columnAccepts (c : ColumnDef) (v : SQLValue) : Bool :=
  match v with
  | .null => !c.notNull || c.pkAutoinc
  | .int _ => true
  | .text _ => true

/-- Does the engine accept an insert supplying, positionally, `vals` (with
`none` for an omitted column) into a table with columns `cols`? -/
def insertAccepted (now : String) (cols : List ColumnDef) (vals : List (Option SQLValue)) : Bool :=
  vals.length == cols.length &&
  (cols.zip vals).all (fun cv => columnAccepts cv.1 (resolveInsertValue now cv.1 cv.2))

example :
    insertAccepted "2026-01-28T00:00:00Z" tasksCols
      [none, some (.text "t"), some .null, some (.int 0),
       some (.text "2026-01-28T00:00:00Z"), some (.text "2026-01-28T00:00:00Z")] = true := by
  decide

example :
    insertAccepted "2026-01-28T00:00:00Z" tasksCols
      [none, none, some .null, some (.int 0),
       some (.text "2026-01-28T00:00:00Z"), some (.text "2026-01-28T00:00:00Z")] = false := by
  decide

/-!
## The timestamp helper `utc_now_iso8601` (init_db.py lines 22-24)

`datetime.now(timezone.utc)` yields an aware datetime already in UTC — the
local timezone plays no part — whose fields satisfy the documented `datetime`
invariants (`1 <= year <= 9999`, `1 <= month <= 12`, `1 <= day <= 31`,
`hour < 24`, `minute < 60`, `second < 60`, `microsecond < 1000000`).  The
instant is modelled by those fields. -/
structure PyDateTime where
  year : Nat
  month : Nat
  day : Nat
  hour : Nat
  minute : Nat
  second : Nat
  microsecond : Nat
deriving DecidableEq

/-- Two-digit zero-padded rendering used by `datetime.isoformat` for the
month, day, hour, minute and second fields (all below 100). -/
def pad2c (n : Nat) : List Char :=
  [Nat.digitChar (n / 10 % 10), Nat.digitChar (n % 10)]

/-- Four-digit zero-padded rendering of the year (`1 <= year <= 9999`). -/
def pad4c (n : Nat) : List Char :=
  [Nat.digitChar (n / 1000 % 10), Nat.digitChar (n / 100 % 10),
   Nat.digitChar (n / 10 % 10), Nat.digitChar (n % 10)]

/-- Six-digit zero-padded rendering of the microsecond field. -/
def pad6c (n : Nat) : List Char :=
  [Nat.digitChar (n / 100000 % 10), Nat.digitChar (n / 10000 % 10),
   Nat.digitChar (n / 1000 % 10), Nat.digitChar (n / 100 % 10),
   Nat.digitChar (n / 10 % 10), Nat.digitChar (n % 10)]

/-- The characters of the UTC offset `"+00:00"` that `isoformat` appends for
`timezone.utc`. -/
def plusPat : List Char := ['+', '0', '0', ':', '0', '0']

/-- The date-time core of `isoformat`: `YYYY-MM-DDTHH:MM:SS`. -/
def isoCoreChars (t : PyDateTime) : List Char :=
  pad4c t.year ++ ['-'] ++ pad2c t.month ++ ['-'] ++ pad2c t.day ++ ['T'] ++
  pad2c t.hour ++ [':'] ++ pad2c t.minute ++ [':'] ++ pad2c t.second

/-- `datetime.isoformat()` for an aware UTC datetime: the core, a fractional
part only when the microsecond field is non-zero, then the numeric offset
`+00:00`. -/
def isoformatChars (t : PyDateTime) : List Char :=
  isoCoreChars t ++
  (if t.microsecond = 0 then [] else '.' :: pad6c t.microsecond) ++ plusPat

/-- Does the string start with `"+00:00"`? -/
def startsWithPlus0000 (s : List Char) : Bool :=
  decide (s.take 6 = plusPat)

/-- Python's `str.replace("+00:00", "Z")`: every non-overlapping occurrence,
scanned left to right.  The fuel argument bounds the recursion by the
length of the string. -/
def pyReplaceZAux : Nat → List Char → List Char
  | 0, s => s
  | _ + 1, [] => []
  | n + 1, c :: cs =>
    if startsWithPlus0000 (c :: cs) then 'Z' :: pyReplaceZAux n (cs.drop 5)
    else c :: pyReplaceZAux n cs

/-- `str.replace("+00:00", "Z")` on a character list. -/
def pyReplaceZ (s : List Char) : List Char :=
  pyReplaceZAux s.length s

/-- `utc_now_iso8601` (init_db.py lines 22-24):
`datetime.now(timezone.utc).replace(microsecond=0).isoformat().replace("+00:00", "Z")`,
applied to the current instant `t`. -/
def utc_now_iso8601 (t : PyDateTime) : String :=
  ⟨pyReplaceZ (isoformatChars ⟨t.year, t.month, t.day, t.hour, t.minute, t.second, 0⟩)⟩

/-- Does the string match `YYYY-MM-DDTHH:MM:SSZ` exactly: twenty characters,
digits in the numeric positions, literal separators, and a final `'Z'`? -/
def matchesTimestampPattern (s : String) : Bool :=
  match s.data with
  | [y1, y2, y3, y4, a, m1, m2, b, d1, d2, c, h1, h2, e, n1, n2, f, s1, s2, z] =>
    y1.isDigit && y2.isDigit && y3.isDigit && y4.isDigit && a == '-' &&
    m1.isDigit && m2.isDigit && b == '-' && d1.isDigit && d2.isDigit &&
    c == 'T' && h1.isDigit && h2.isDigit && e == ':' && n1.isDigit &&
    n2.isDigit && f == ':' && s1.isDigit && s2.isDigit && z == 'Z'
  | _ => false

example : utc_now_iso8601 ⟨2026, 1, 28, 12, 34, 56, 987654⟩ = "2026-01-28T12:34:56Z" := by
  decide

/-!
## The `main` driver (init_db.py lines 100-223)
-/

/-- The outcome of a `main` run: the committed store, whether the script ran
to completion, and the warning lines it printed. -/
structure MainResult where
  db : DB
  completed : Bool
  warnings : List String
deriving DecidableEq

/-- Warning printed when the pre-flight accessibility probe fails
(init_db.py line 115). -/
def corruptWarning : String := "Warning: Database exists but may be corrupted"

/-- Warning printed when writing `db_connection.txt` fails
(init_db.py line 176). -/
def connInfoWarning : String := "Warning: Could not save connection info"

/-- Warning printed when writing `db_visualizer/sqlite.env` fails
(init_db.py line 191). -/
def envWarning : String := "Warning: Could not save environment variables"

/-- The `main` driver.  `fileDb` is the store held by the database file
(`none` when the file does not exist); `probeOk` tells whether the
pre-flight `connect` + `SELECT 1` probe succeeds; `connWriteOk` and
`envWriteOk` tell whether the two artifact writes succeed.

A failing probe only prints `corruptWarning` (init_db.py lines 109-115);
`sqlite3.connect` then opens the same file either way, creating an empty
store when the file is absent.  A convergence failure escapes `main` (the
`try` block has only `finally`), leaving the store the autocommitted DDL
produced; on success the metadata upsert runs and commits.  Each artifact
write failure is caught, prints its warning, and execution continues
(init_db.py lines 168-176 and 186-191). -/
def runMain (fileDb : Option DB) (probeOk : Bool) (now : String)
    (connWriteOk envWriteOk : Bool) : MainResult :=
  let preWarnings : List String :=
    match fileDb with
    | some _ => if probeOk then [] else [corruptWarning]
    | none => []
  let db0 := fileDb.getD DB.empty
  match ensureSchemaRun db0 with
  | .error _ =>
    { db := (runDDLAutocommit ensureSchemaStmts none 0 db0).1,
      completed := false, warnings := preWarnings }
  | .ok db1 =>
    { db := metadataUpsert now db1,
      completed := true,
      warnings := preWarnings ++
        (if connWriteOk then [] else [connInfoWarning]) ++
        (if envWriteOk then [] else [envWarning]) }

/-!
## Helper lemmas about catalog lookup
-/

lemma find_append_of_some {α : Type} (p : α → Bool) {l1 : List α} (l2 : List α)
    {a : α} (h : l1.find? p = some a) : (l1 ++ l2).find? p = some a := by
  induction l1 with
  | nil => simp [List.find?] at h
  | cons x xs ih =>
    rw [List.cons_append]
    cases hp : p x with
    | true =>
      rw [List.find?_cons_of_pos _ hp] at h ⊢
      exact h
    | false =>
      rw [List.find?_cons_of_neg _ (by simp [hp])] at h ⊢
      exact ih h

lemma find_append_of_none {α : Type} (p : α → Bool) {l1 : List α} (l2 : List α)
    (h : l1.find? p = none) : (l1 ++ l2).find? p = l2.find? p := by
  induction l1 with
  | nil => simp
  | cons x xs ih =>
    rw [List.cons_append]
    cases hp : p x with
    | true => rw [List.find?_cons_of_pos _ hp] at h; exact absurd h (by simp)
    | false =>
      rw [List.find?_cons_of_neg _ (by simp [hp])] at h ⊢
      exact ih h

lemma DB.findObj_append {db : DB} {t : List SchemaObject} {n : String}
    {o : SchemaObject} (h : db.findObj n = some o) :
    ({ db with objects := db.objects ++ t } : DB).findObj n = some o := by
  unfold DB.findObj at h ⊢
  exact find_append_of_some _ t h

/-!
## Helper lemmas about a single statement
-/

lemma execStmt_table_noop {db : DB} (n : String) (cols : List ColumnDef)
    (h : db.isTableNamed n = true) :
    execStmt (.createTableIfNotExists n cols) db = .ok db := by
  unfold DB.isTableNamed at h
  simp only [execStmt]
  split at h
  · next heq => rw [heq]
  · next => exact absurd h (by simp)

lemma execStmt_index_noop {db : DB} (n tbl : String) (cols : List String)
    (h : db.isIndexNamed n = true) :
    execStmt (.createIndexIfNotExists n tbl cols) db = .ok db := by
  unfold DB.isIndexNamed at h
  simp only [execStmt]
  split at h
  · next heq => rw [heq]
  · next => exact absurd h (by simp)

/-- A successful create statement only appends to the catalog and leaves
every row store and the AUTOINCREMENT counter unchanged. -/
lemma execStmt_create_frame {s : Stmt} (hs : s.isCreateIfAbsent = true)
    {db db' : DB} (h : execStmt s db = .ok db') :
    (∃ t, db'.objects = db.objects ++ t) ∧
    db'.tasksRows = db.tasksRows ∧ db'.usersRows = db.usersRows ∧
    db'.appInfoRows = db.appInfoRows ∧ db'.appInfoSeq = db.appInfoSeq := by
  cases s with
  | createTableIfNotExists n cols =>
    simp only [execStmt] at h
    split at h
    · cases h
      exact ⟨⟨[], by simp⟩, rfl, rfl, rfl, rfl⟩
    · cases h
    · cases h
      exact ⟨⟨[.table n cols], rfl⟩, rfl, rfl, rfl, rfl⟩
  | createIndexIfNotExists n tbl cols =>
    simp only [execStmt] at h
    split at h
    · cases h
      exact ⟨⟨[], by simp⟩, rfl, rfl, rfl, rfl⟩
    · cases h
    · split at h
      · cases h
        exact ⟨⟨[.index n tbl cols], rfl⟩, rfl, rfl, rfl, rfl⟩
      · cases h
  | dropTable n => simp [Stmt.isCreateIfAbsent] at hs
  | dropIndex n => simp [Stmt.isCreateIfAbsent] at hs
  | deleteFrom n => simp [Stmt.isCreateIfAbsent] at hs

/-- A successful create statement preserves every positive catalog-lookup
fact. -/
lemma execStmt_create_mono {s : Stmt} (hs : s.isCreateIfAbsent = true)
    {db db' : DB} (h : execStmt s db = .ok db') {n : String}
    {o : SchemaObject} (hf : db.findObj n = some o) :
    db'.findObj n = some o := by
  obtain ⟨⟨t, ht⟩, h1, h2, h3, h4⟩ := execStmt_create_frame hs h
  have hdb : db' = { db with objects := db.objects ++ t } := by
    cases db'
    cases db
    simp_all
  rw [hdb]
  exact DB.findObj_append hf

/-- After a successful `CREATE TABLE IF NOT EXISTS n`, the catalog holds a
table named `n`. -/
lemma execStmt_table_creates {db db' : DB} {n : String} {cols : List ColumnDef}
    (h : execStmt (.createTableIfNotExists n cols) db = .ok db') :
    db'.isTableNamed n = true := by
  simp only [execStmt] at h
  split at h
  · next heq =>
    cases h
    simp [DB.isTableNamed, heq]
  · cases h
  · next heq =>
    cases h
    unfold DB.isTableNamed DB.findObj
    unfold DB.findObj at heq
    simp only
    rw [find_append_of_none _ _ heq]
    simp [List.find?, SchemaObject.objName]

/-- After a successful `CREATE INDEX IF NOT EXISTS n`, the catalog holds an
index named `n`. -/
lemma execStmt_index_creates {db db' : DB} {n tbl : String} {cols : List String}
    (h : execStmt (.createIndexIfNotExists n tbl cols) db = .ok db') :
    db'.isIndexNamed n = true := by
  simp only [execStmt] at h
  split at h
  · next heq =>
    cases h
    simp [DB.isIndexNamed, heq]
  · cases h
  · next heq =>
    split at h
    · cases h
      unfold DB.isIndexNamed DB.findObj
      unfold DB.findObj at heq
      simp only
      rw [find_append_of_none _ _ heq]
      simp [List.find?, SchemaObject.objName]
    · cases h

/-- `isTableNamed` is a positive lookup fact, preserved by successful create
statements. -/
lemma execStmt_create_mono_table {s : Stmt} (hs : s.isCreateIfAbsent = true)
    {db db' : DB} (h : execStmt s db = .ok db') {n : String}
    (hf : db.isTableNamed n = true) : db'.isTableNamed n = true := by
  unfold DB.isTableNamed at hf ⊢
  split at hf
  · next heq => rw [execStmt_create_mono hs h heq]
  · exact absurd hf (by simp)

/-- `isIndexNamed` is a positive lookup fact, preserved by successful create
statements. -/
lemma execStmt_create_mono_index {s : Stmt} (hs : s.isCreateIfAbsent = true)
    {db db' : DB} (h : execStmt s db = .ok db') {n : String}
    (hf : db.isIndexNamed n = true) : db'.isIndexNamed n = true := by
  unfold DB.isIndexNamed at hf ⊢
  split at hf
  · next heq => rw [execStmt_create_mono hs h heq]
  · exact absurd hf (by simp)

/-!
## Helper lemmas about a full convergence run
-/

lemma exists_append_trans {α : Type} {a b c : List α}
    (h1 : ∃ t, b = a ++ t) (h2 : ∃ t, c = b ++ t) : ∃ t, c = a ++ t := by
  obtain ⟨t1, rfl⟩ := h1
  obtain ⟨t2, rfl⟩ := h2
  exact ⟨t1 ++ t2, by simp⟩

/-- A successful convergence run leaves the store converged, only appends to
the catalog, and alters no row and no AUTOINCREMENT counter. -/
lemma run_ok_state {db db' : DB} (h : ensureSchemaRun db = .ok db') :
    schemaConverged db' = true ∧
    (∃ t, db'.objects = db.objects ++ t) ∧
    db'.tasksRows = db.tasksRows ∧ db'.usersRows = db.usersRows ∧
    db'.appInfoRows = db.appInfoRows ∧ db'.appInfoSeq = db.appInfoSeq := by
  unfold ensureSchemaRun at h
  split at h
  · cases h
  · next db1 heq1 =>
    split at h
    · cases h
    · next db2 heq2 =>
      split at h
      · cases h
      · next db3 heq3 =>
        split at h
        · cases h
        · next db4 heq4 =>
          split at h
          · cases h
          · next db5 heq5 =>
            cases h
            have f1 := execStmt_create_frame (by decide) heq1
            have f2 := execStmt_create_frame (by decide) heq2
            have f3 := execStmt_create_frame (by decide) heq3
            have f4 := execStmt_create_frame (by decide) heq4
            have f5 := execStmt_create_frame (by decide) heq5
            have t1 : db'.isTableNamed "app_info" = true :=
              execStmt_create_mono_table (by decide) heq5
                (execStmt_create_mono_table (by decide) heq4
                  (execStmt_create_mono_table (by decide) heq3
                    (execStmt_create_mono_table (by decide) heq2
                      (execStmt_table_creates heq1))))
            have t2 : db'.isTableNamed "users" = true :=
              execStmt_create_mono_table (by decide) heq5
                (execStmt_create_mono_table (by decide) heq4
                  (execStmt_create_mono_table (by decide) heq3
                    (execStmt_table_creates heq2)))
            have t3 : db'.isTableNamed "tasks" = true :=
              execStmt_create_mono_table (by decide) heq5
                (execStmt_create_mono_table (by decide) heq4
                  (execStmt_table_creates heq3))
            have i4 : db'.isIndexNamed "idx_tasks_completed" = true :=
              execStmt_create_mono_index (by decide) heq5
                (execStmt_index_creates heq4)
            have i5 : db'.isIndexNamed "idx_tasks_updated_at" = true :=
              execStmt_index_creates heq5
            refine ⟨by simp [schemaConverged, t1, t2, t3, i4, i5], ?_, ?_, ?_, ?_, ?_⟩
            · exact exists_append_trans f1.1
                (exists_append_trans f2.1
                  (exists_append_trans f3.1 (exists_append_trans f4.1 f5.1)))
            · rw [f5.2.1, f4.2.1, f3.2.1, f2.2.1, f1.2.1]
            · rw [f5.2.2.1, f4.2.2.1, f3.2.2.1, f2.2.2.1, f1.2.2.1]
            · rw [f5.2.2.2.1, f4.2.2.2.1, f3.2.2.2.1, f2.2.2.2.1, f1.2.2.2.1]
            · rw [f5.2.2.2.2, f4.2.2.2.2, f3.2.2.2.2, f2.2.2.2.2, f1.2.2.2.2]

/-- On a converged store, every statement of the routine is a no-op: the run
returns the store unchanged and raises no error. -/
lemma run_noop_of_converged {db : DB} (h : schemaConverged db = true) :
    ensureSchemaRun db = .ok db := by
  simp only [schemaConverged, Bool.and_eq_true] at h
  obtain ⟨⟨⟨⟨h1, h2⟩, h3⟩, h4⟩, h5⟩ := h
  have e1 : execStmt stmtCreateAppInfo db = .ok db :=
    execStmt_table_noop "app_info" appInfoCols h1
  have e2 : execStmt stmtCreateUsers db = .ok db :=
    execStmt_table_noop "users" usersCols h2
  have e3 : execStmt stmtCreateTasks db = .ok db :=
    execStmt_table_noop "tasks" tasksCols h3
  have e4 : execStmt stmtIdxCompleted db = .ok db :=
    execStmt_index_noop "idx_tasks_completed" "tasks" ["completed"] h4
  have e5 : execStmt stmtIdxUpdatedAt db = .ok db :=
    execStmt_index_noop "idx_tasks_updated_at" "tasks" ["updated_at"] h5
  simp only [ensureSchemaRun, e1, e2, e3, e4, e5]

/-- Any number of further runs on a converged store return it unchanged. -/
lemma ensureSchemaN_of_converged {db : DB} (h : schemaConverged db = true) :
    ∀ n, ensureSchemaN n db = .ok db := by
  intro n
  induction n with
  | zero => rfl
  | succ n ih => simp only [ensureSchemaN, run_noop_of_converged h]; exact ih



/-!
## Helper lemmas about the autocommitted DDL run
-/

/-- Stopping the walk at position `i` leaves committed exactly what the walk
over the first `i` statements commits: every object created by an earlier
statement of the failed run persists. -/
lemma runDDL_failAt_take (stmts : List Stmt) : ∀ (k i : Nat) (db : DB),
    (runDDLAutocommit stmts (some (k + i)) k db).1 =
    (runDDLAutocommit (stmts.take i) none k db).1 := by
  induction stmts with
  | nil => intro k i db; simp [runDDLAutocommit]
  | cons s rest ih =>
    intro k i db
    cases i with
    | zero => simp [runDDLAutocommit]
    | succ j =>
      have hne : ¬ (k + (j + 1) = k) := by omega
      simp only [runDDLAutocommit, List.take]
      rw [if_neg (by simp [hne]), if_neg (by simp)]
      cases he : execStmt s db with
      | error e => simp
      | ok db2 =>
        simp only
        have harith : k + (j + 1) = (k + 1) + j := by omega
        rw [harith]
        exact ih (k + 1) j db2

/-- A run of `ensure_schema` that raises no error corresponds to the
autocommitted walk succeeding with the same final committed store. -/
lemma runDDL_none_of_run_ok {db db' : DB} (h : ensureSchemaRun db = .ok db') :
    runDDLAutocommit ensureSchemaStmts none 0 db = (db', true) := by
  unfold ensureSchemaRun at h
  split at h
  · cases h
  · next db1 heq1 =>
    split at h
    · cases h
    · next db2 heq2 =>
      split at h
      · cases h
      · next db3 heq3 =>
        split at h
        · cases h
        · next db4 heq4 =>
          split at h
          · cases h
          · next db5 heq5 =>
            cases h
            simp [runDDLAutocommit, ensureSchemaStmts, heq1, heq2, heq3, heq4, heq5]

/-!
## Helper lemmas about the metadata upsert
-/

lemma filter_key_after_remove (rows : List AppInfoRow) (k : String) :
    (rows.filter (fun r => r.key != k)).filter (fun r => r.key == k) = [] := by
  induction rows with
  | nil => rfl
  | cons r rest ih =>
    cases hk : r.key == k with
    | false => simp [List.filter, hk, bne, ih]
    | true => simp [List.filter, hk, bne, ih]

lemma filter_key_remove_other (rows : List AppInfoRow) (k k' : String)
    (h : (k' == k) = false) :
    (rows.filter (fun r => r.key != k)).filter (fun r => r.key == k') =
    rows.filter (fun r => r.key == k') := by
  rw [List.filter_filter]
  apply List.filter_congr
  intro a _
  cases ha : a.key == k' with
  | false => simp [ha]
  | true =>
    have ha2 : a.key = k' := eq_of_beq ha
    have hne : (a.key == k) = false := by rw [ha2]; exact h
    simp [ha, hne, bne]

/-- The AUTOINCREMENT counter after one upsert. -/
lemma upsert_seq (now : String) (db : DB) (k v : String) :
    (insertOrReplaceAppInfo now db k v).appInfoSeq = db.appInfoSeq + 1 := rfl

/-- After upserting key `k`, the store holds exactly one row for `k`: the
freshly inserted one. -/
lemma rowsForKey_upsert_same (db : DB) (now k v : String) :
    rowsForKey (insertOrReplaceAppInfo now db k v).appInfoRows k =
    [⟨db.appInfoSeq + 1, k, .text v, now⟩] := by
  unfold insertOrReplaceAppInfo rowsForKey
  simp only [List.filter_append, filter_key_after_remove]
  simp [List.filter]

/-- Upserting key `k` leaves the rows of any other key untouched. -/
lemma rowsForKey_upsert_other (db : DB) (now k v k' : String)
    (h : (k' == k) = false) :
    rowsForKey (insertOrReplaceAppInfo now db k v).appInfoRows k' =
    rowsForKey db.appInfoRows k' := by
  unfold insertOrReplaceAppInfo rowsForKey
  simp only [List.filter_append, filter_key_remove_other _ _ _ h]
  have hkk : (k == k') = false := by
    rw [beq_eq_false_iff_ne] at h ⊢
    exact fun hkontra => h hkontra.symm
  simp [List.filter, hkk]

lemma metadata_rows_project_name (db : DB) (now : String) :
    rowsForKey (metadataUpsert now db).appInfoRows "project_name" =
    [⟨db.appInfoSeq + 1, "project_name", .text "database", now⟩] := by
  unfold metadataUpsert
  rw [rowsForKey_upsert_other _ _ _ _ _ (by decide),
      rowsForKey_upsert_other _ _ _ _ _ (by decide),
      rowsForKey_upsert_other _ _ _ _ _ (by decide),
      rowsForKey_upsert_same]

lemma metadata_rows_version (db : DB) (now : String) :
    rowsForKey (metadataUpsert now db).appInfoRows "version" =
    [⟨db.appInfoSeq + 2, "version", .text "0.1.0", now⟩] := by
  unfold metadataUpsert
  rw [rowsForKey_upsert_other _ _ _ _ _ (by decide),
      rowsForKey_upsert_other _ _ _ _ _ (by decide),
      rowsForKey_upsert_same, upsert_seq]

lemma metadata_rows_author (db : DB) (now : String) :
    rowsForKey (metadataUpsert now db).appInfoRows "author" =
    [⟨db.appInfoSeq + 3, "author", .text "John Doe", now⟩] := by
  unfold metadataUpsert
  rw [rowsForKey_upsert_other _ _ _ _ _ (by decide),
      rowsForKey_upsert_same, upsert_seq, upsert_seq]

lemma metadata_rows_description (db : DB) (now : String) :
    rowsForKey (metadataUpsert now db).appInfoRows "description" =
    [⟨db.appInfoSeq + 4, "description", .text "", now⟩] := by
  unfold metadataUpsert
  rw [rowsForKey_upsert_same, upsert_seq, upsert_seq, upsert_seq]

lemma metadata_rows_other (db : DB) (now : String) (k : String)
    (h1 : (k == "project_name") = false) (h2 : (k == "version") = false)
    (h3 : (k == "author") = false) (h4 : (k == "description") = false) :
    rowsForKey (metadataUpsert now db).appInfoRows k =
    rowsForKey db.appInfoRows k := by
  unfold metadataUpsert
  rw [rowsForKey_upsert_other _ _ _ _ _ h4, rowsForKey_upsert_other _ _ _ _ _ h3,
      rowsForKey_upsert_other _ _ _ _ _ h2, rowsForKey_upsert_other _ _ _ _ _ h1]

/-!
## Helper lemmas about the timestamp helper
-/

lemma digitChar_mod_ten_isDigit (k : Nat) : (Nat.digitChar (k % 10)).isDigit = true := by
  have hlt : k % 10 < 10 := Nat.mod_lt _ (by norm_num)
  set m := k % 10 with hm
  interval_cases m <;> decide

lemma digitChar_mod_ten_ne_plus (k : Nat) : Nat.digitChar (k % 10) ≠ '+' := by
  have hlt : k % 10 < 10 := Nat.mod_lt _ (by norm_num)
  set m := k % 10 with hm
  interval_cases m <;> decide

lemma plus_not_mem_pad2c (n : Nat) : '+' ∉ pad2c n := by
  simp only [pad2c, List.mem_cons, List.not_mem_nil, or_false]
  rintro (h | h) <;> exact digitChar_mod_ten_ne_plus _ h.symm

lemma plus_not_mem_pad4c (n : Nat) : '+' ∉ pad4c n := by
  simp only [pad4c, List.mem_cons, List.not_mem_nil, or_false]
  rintro (h | h | h | h) <;> exact digitChar_mod_ten_ne_plus _ h.symm

lemma plus_not_mem_isoCoreChars (t : PyDateTime) : '+' ∉ isoCoreChars t := by
  simp [isoCoreChars, List.mem_append, plus_not_mem_pad2c, plus_not_mem_pad4c]

lemma pyReplaceZAux_nil (n : Nat) : pyReplaceZAux n [] = [] := by
  cases n <;> rfl

lemma startsWithPlus0000_cons_ne {c : Char} (rest : List Char) (hc : c ≠ '+') :
    startsWithPlus0000 (c :: rest) = false := by
  unfold startsWithPlus0000 plusPat
  rw [decide_eq_false_iff_not]
  intro heq
  rw [show (6 : Nat) = 5 + 1 from rfl, List.take_succ_cons] at heq
  injection heq with h1 h2
  exact hc h1

/-- Replacing `"+00:00"` in a string that is a plus-free prefix followed by
exactly one trailing `"+00:00"` yields the prefix with a final `'Z'`. -/
lemma pyReplaceZAux_append (xs : List Char) : ∀ n, xs.length + 6 ≤ n → '+' ∉ xs →
    pyReplaceZAux n (xs ++ plusPat) = xs ++ ['Z'] := by
  induction xs with
  | nil =>
    intro n hn hplus
    obtain ⟨m, rfl⟩ : ∃ m, n = m + 1 := ⟨n - 1, by omega⟩
    have hsw : startsWithPlus0000 plusPat = true := by decide
    simp only [List.nil_append, plusPat] at hsw ⊢
    simp only [pyReplaceZAux, hsw, if_true]
    simp [List.drop, pyReplaceZAux_nil]
  | cons c cs ih =>
    intro n hn hplus
    obtain ⟨m, rfl⟩ : ∃ m, n = m + 1 := ⟨n - 1, by omega⟩
    have hc : c ≠ '+' := fun hcEq => hplus (by simp [hcEq])
    simp only [List.cons_append, pyReplaceZAux, List.append_eq]
    rw [startsWithPlus0000_cons_ne _ hc]
    simp only [Bool.false_eq_true, if_false]
    rw [ih m (by simp at hn ⊢; omega) (fun hmem => hplus (List.mem_cons_of_mem _ hmem))]

/-- The characters of `utc_now_iso8601 t`: the date-time core with a final
`'Z'` in place of the numeric offset. -/
lemma utc_now_iso8601_data (t : PyDateTime) :
    (utc_now_iso8601 t).data =
    isoCoreChars ⟨t.year, t.month, t.day, t.hour, t.minute, t.second, 0⟩ ++ ['Z'] := by
  have hchars : isoformatChars ⟨t.year, t.month, t.day, t.hour, t.minute, t.second, 0⟩ =
      isoCoreChars ⟨t.year, t.month, t.day, t.hour, t.minute, t.second, 0⟩ ++ plusPat := by
    simp [isoformatChars]
  show pyReplaceZ (isoformatChars ⟨t.year, t.month, t.day, t.hour, t.minute, t.second, 0⟩) = _
  rw [pyReplaceZ, hchars]
  refine pyReplaceZAux_append _ _ (le_of_eq ?_) (plus_not_mem_isoCoreChars _)
  simp [plusPat]

lemma matchesTimestampPattern_core (t : PyDateTime) :
    matchesTimestampPattern ⟨isoCoreChars t ++ ['Z']⟩ = true := by
  unfold matchesTimestampPattern isoCoreChars pad4c pad2c
  simp only [List.cons_append, List.nil_append, List.append_assoc]
  simp [digitChar_mod_ten_isDigit]

/-!
## The claims
-/

/-- C1: Running the schema convergence routine `ensure_schema` N times
(N ≥ 1) against the same store yields exactly the result of running it once;
whenever a run succeeds, the following run (and hence every later one)
succeeds without error and returns the store unchanged, and the run alters
no existing row of the tasks, users (or app_info) tables. -/
theorem ensure_schema_idempotent (db : DB) (N : Nat) (hN : 1 ≤ N) :
    ensureSchemaN N db = ensureSchemaRun db ∧
    ∀ db1, ensureSchemaRun db = .ok db1 →
      ensureSchemaRun db1 = .ok db1 ∧
      db1.tasksRows = db.tasksRows ∧ db1.usersRows = db.usersRows ∧
      db1.appInfoRows = db.appInfoRows := by
  constructor
  · obtain ⟨n, rfl⟩ : ∃ n, N = n + 1 := ⟨N - 1, by omega⟩
    cases hr : ensureSchemaRun db with
    | error e => simp only [ensureSchemaN, hr]
    | ok db1 =>
      simp only [ensureSchemaN, hr]
      exact ensureSchemaN_of_converged (run_ok_state hr).1 n
  · intro db1 h1
    obtain ⟨hc, hobj, ht, hu, ha, hq⟩ := run_ok_state h1
    exact ⟨run_noop_of_converged hc, ht, hu, ha⟩

theorem ensure_schema_idempotent_witness :
    1 ≤ 2 ∧
    (ensureSchemaN 2 DB.empty = ensureSchemaRun DB.empty ∧
     ∀ db1, ensureSchemaRun DB.empty = .ok db1 →
       ensureSchemaRun db1 = .ok db1 ∧
       db1.tasksRows = DB.empty.tasksRows ∧ db1.usersRows = DB.empty.usersRows ∧
       db1.appInfoRows = DB.empty.appInfoRows) :=
  ⟨by decide, ensure_schema_idempotent DB.empty 2 (by decide)⟩

/-- C2: whenever `ensure_schema` returns successfully, the tables
`app_info`, `users`, `tasks` and the indexes `idx_tasks_completed` and
`idx_tasks_updated_at` all exist in the store; starting from an empty store,
one run produces exactly the non-system tables
`app_info`, `users`, `tasks`. -/
theorem ensure_schema_creates_all_objects :
    (∀ db db', ensureSchemaRun db = .ok db' →
      db'.isTableNamed "app_info" = true ∧ db'.isTableNamed "users" = true ∧
      db'.isTableNamed "tasks" = true ∧
      db'.isIndexNamed "idx_tasks_completed" = true ∧
      db'.isIndexNamed "idx_tasks_updated_at" = true) ∧
    ensureSchemaRun DB.empty = .ok convergedFromEmpty ∧
    convergedFromEmpty.nonSystemTables = ["app_info", "users", "tasks"] := by
  refine ⟨?_, by decide, by decide⟩
  intro db db' h
  have hc := (run_ok_state h).1
  simp only [schemaConverged, Bool.and_eq_true] at hc
  obtain ⟨⟨⟨⟨h1, h2⟩, h3⟩, h4⟩, h5⟩ := hc
  exact ⟨h1, h2, h3, h4, h5⟩

theorem ensure_schema_creates_all_objects_witness :
    convergedFromEmpty.isTableNamed "app_info" = true ∧
    convergedFromEmpty.isTableNamed "users" = true ∧
    convergedFromEmpty.isTableNamed "tasks" = true ∧
    convergedFromEmpty.isIndexNamed "idx_tasks_completed" = true ∧
    convergedFromEmpty.isIndexNamed "idx_tasks_updated_at" = true :=
  ensure_schema_creates_all_objects.1 DB.empty convergedFromEmpty (by decide)

/-- C3: for every invocation instant (an aware UTC datetime, whose fields
obey the documented datetime invariants), the string returned by
`utc_now_iso8601` matches `YYYY-MM-DDTHH:MM:SSZ`: second precision, no
fractional seconds, a terminal literal `'Z'`, and no `'+'` anywhere — hence
no numeric offset such as `+00:00`.  The instant handed to the helper by
`datetime.now(timezone.utc)` is in UTC whatever the local offset, so the
result is independent of the local time zone. -/
theorem utc_now_iso8601_format (t : PyDateTime)
    (hy1 : 1 ≤ t.year) (hy2 : t.year ≤ 9999)
    (hmo1 : 1 ≤ t.month) (hmo2 : t.month ≤ 12)
    (hd1 : 1 ≤ t.day) (hd2 : t.day ≤ 31)
    (hh : t.hour < 24) (hmi : t.minute < 60) (hs : t.second < 60)
    (hus : t.microsecond < 1000000) :
    matchesTimestampPattern (utc_now_iso8601 t) = true ∧
    '+' ∉ (utc_now_iso8601 t).data := by
  have hdata := utc_now_iso8601_data t
  have hstr : utc_now_iso8601 t =
      ⟨isoCoreChars ⟨t.year, t.month, t.day, t.hour, t.minute, t.second, 0⟩ ++ ['Z']⟩ :=
    congrArg String.mk hdata
  constructor
  · rw [hstr]
    exact matchesTimestampPattern_core _
  · rw [hdata]
    simp [List.mem_append, plus_not_mem_isoCoreChars]

theorem utc_now_iso8601_format_witness :
    matchesTimestampPattern (utc_now_iso8601 ⟨2026, 1, 28, 12, 34, 56, 987654⟩) = true ∧
    '+' ∉ (utc_now_iso8601 ⟨2026, 1, 28, 12, 34, 56, 987654⟩).data :=
  utc_now_iso8601_format ⟨2026, 1, 28, 12, 34, 56, 987654⟩ (by decide) (by decide)
    (by decide) (by decide) (by decide) (by decide) (by decide) (by decide)
    (by decide) (by decide)

/-- C4: after the metadata upsert, each of the four fixed keys
(`project_name`, `version`, `author`, `description`) is held by exactly one
`app_info` row carrying the fixed bootstrap value — in particular `version`
reads `"0.1.0"` whatever row existed before, with no duplicate row for the
key — and the rows of every other key are left entirely unchanged. -/
theorem metadata_upsert_fixed_keys (db : DB) (now : String) :
    rowsForKey (metadataUpsert now db).appInfoRows "project_name" =
      [⟨db.appInfoSeq + 1, "project_name", .text "database", now⟩] ∧
    rowsForKey (metadataUpsert now db).appInfoRows "version" =
      [⟨db.appInfoSeq + 2, "version", .text "0.1.0", now⟩] ∧
    rowsForKey (metadataUpsert now db).appInfoRows "author" =
      [⟨db.appInfoSeq + 3, "author", .text "John Doe", now⟩] ∧
    rowsForKey (metadataUpsert now db).appInfoRows "description" =
      [⟨db.appInfoSeq + 4, "description", .text "", now⟩] ∧
    ∀ k, (k == "project_name") = false → (k == "version") = false →
      (k == "author") = false → (k == "description") = false →
      rowsForKey (metadataUpsert now db).appInfoRows k =
        rowsForKey db.appInfoRows k :=
  ⟨metadata_rows_project_name db now, metadata_rows_version db now,
   metadata_rows_author db now, metadata_rows_description db now,
   fun k h1 h2 h3 h4 => metadata_rows_other db now k h1 h2 h3 h4⟩

theorem metadata_upsert_fixed_keys_witness :
    rowsForKey (metadataUpsert "2026-01-28T12:00:00Z"
        ⟨[], [], [], [⟨1, "version", .text "0.0.9", "2025-01-01 00:00:00"⟩,
                      ⟨2, "other", .text "keep", "2025-01-01 00:00:00"⟩],
         2⟩).appInfoRows "version" =
      [⟨4, "version", .text "0.1.0", "2026-01-28T12:00:00Z"⟩] ∧
    rowsForKey (metadataUpsert "2026-01-28T12:00:00Z"
        ⟨[], [], [], [⟨1, "version", .text "0.0.9", "2025-01-01 00:00:00"⟩,
                      ⟨2, "other", .text "keep", "2025-01-01 00:00:00"⟩],
         2⟩).appInfoRows "other" =
      rowsForKey [⟨1, "version", .text "0.0.9", "2025-01-01 00:00:00"⟩,
                  ⟨2, "other", .text "keep", "2025-01-01 00:00:00"⟩] "other" := by
  have h := metadata_upsert_fixed_keys
    ⟨[], [], [], [⟨1, "version", .text "0.0.9", "2025-01-01 00:00:00"⟩,
                  ⟨2, "other", .text "keep", "2025-01-01 00:00:00"⟩], 2⟩
    "2026-01-28T12:00:00Z"
  exact ⟨h.2.1, h.2.2.2.2 "other" (by decide) (by decide) (by decide) (by decide)⟩

/-- C5 counterexample: from an empty store, an engine failure at the fourth
statement of a convergence run (position 3: the first index creation) leaves
the run failed, yet the committed store holds the `tasks` table created by
the third statement — while prior successful runs had left the store empty.
Under the driver's legacy transaction control, DDL executes in autocommit
mode (the driver opens implicit transactions only around DML), so the
claimed all-or-nothing commit of the five schema statements fails at this
input: schema objects of earlier statements of the failed run persist. -/
theorem ensure_schema_commit_not_atomic :
    (runDDLAutocommit ensureSchemaStmts (some 3) 0 DB.empty).2 = false ∧
    (runDDLAutocommit ensureSchemaStmts (some 3) 0 DB.empty).1.isTableNamed "tasks" = true ∧
    ¬ (runDDLAutocommit ensureSchemaStmts (some 3) 0 DB.empty).1 = DB.empty :=
  ⟨by decide, by decide, by decide⟩

/-- C5 amended: each schema statement is committed individually as it
executes (autocommitted DDL): the committed state of a run that the engine
stops at statement `i` is exactly the state left by successfully executing
the first `i` statements — objects created by earlier statements of the
failed run persist — and when `ensure_schema` returns successfully all five
statements have been committed, the final `conn.commit()` having no open
transaction left to commit. -/
theorem ensure_schema_autocommit_per_statement (db : DB) (i : Nat) :
    (runDDLAutocommit ensureSchemaStmts (some i) 0 db).1 =
      (runDDLAutocommit (ensureSchemaStmts.take i) none 0 db).1 ∧
    ∀ db', ensureSchemaRun db = .ok db' →
      runDDLAutocommit ensureSchemaStmts none 0 db = (db', true) := by
  constructor
  · have h := runDDL_failAt_take ensureSchemaStmts 0 i db
    simpa using h
  · intro db' h
    exact runDDL_none_of_run_ok h

theorem ensure_schema_autocommit_per_statement_witness :
    (runDDLAutocommit ensureSchemaStmts (some 3) 0 DB.empty).1 =
      (runDDLAutocommit (ensureSchemaStmts.take 3) none 0 DB.empty).1 ∧
    runDDLAutocommit ensureSchemaStmts none 0 DB.empty = (convergedFromEmpty, true) :=
  ⟨(ensure_schema_autocommit_per_statement DB.empty 3).1,
   (ensure_schema_autocommit_per_statement DB.empty 3).2 convergedFromEmpty (by decide)⟩

/-- C6: every statement the schema convergence routine issues is a
create-if-absent table or index statement; none is destructive (no drop, no
truncate, no delete). -/
theorem ensure_schema_no_destructive_stmt (s : Stmt) (hs : s ∈ ensureSchemaStmts) :
    s.isDestructive = false ∧ s.isCreateIfAbsent = true := by
  fin_cases hs <;> exact ⟨rfl, rfl⟩

theorem ensure_schema_no_destructive_stmt_witness :
    stmtCreateTasks.isDestructive = false ∧ stmtCreateTasks.isCreateIfAbsent = true :=
  ensure_schema_no_destructive_stmt stmtCreateTasks (by decide)

/-- C7: a failure while writing `db_connection.txt` or
`db_visualizer/sqlite.env` is non-fatal: the bootstrap completes exactly when
the all-writes-succeed run does, the committed store (schema and `app_info`
rows) is identical to that run's, and whenever the run reaches the write
phase each failing write merely logs its warning. -/
theorem artifact_write_failure_nonfatal (fileDb : Option DB) (probeOk : Bool)
    (now : String) (cok eok : Bool) :
    (runMain fileDb probeOk now cok eok).db = (runMain fileDb probeOk now true true).db ∧
    (runMain fileDb probeOk now cok eok).completed =
      (runMain fileDb probeOk now true true).completed ∧
    ((runMain fileDb probeOk now cok eok).completed = true →
      (cok = false → connInfoWarning ∈ (runMain fileDb probeOk now cok eok).warnings) ∧
      (eok = false → envWarning ∈ (runMain fileDb probeOk now cok eok).warnings)) := by
  unfold runMain
  cases h : ensureSchemaRun (fileDb.getD DB.empty) with
  | error e => simp [h]
  | ok db1 => cases cok <;> cases eok <;> simp [h, List.mem_append]

theorem artifact_write_failure_nonfatal_witness :
    (runMain none true "2026-01-28T12:00:00Z" false false).db =
      (runMain none true "2026-01-28T12:00:00Z" true true).db ∧
    connInfoWarning ∈ (runMain none true "2026-01-28T12:00:00Z" false false).warnings ∧
    envWarning ∈ (runMain none true "2026-01-28T12:00:00Z" false false).warnings := by
  have h := artifact_write_failure_nonfatal none true "2026-01-28T12:00:00Z" false false
  exact ⟨h.1, (h.2.2 (by decide)).1 rfl, (h.2.2 (by decide)).2 rfl⟩

/-- C8: the `completed` column of `tasks` is constrained only to be non-null
with default 0: the schema created by `ensure_schema` accepts an insert with
any integer value for `completed` (so also 2 or -1), rejects NULL there, and
resolves an omitted `completed` to the default 0. -/
theorem tasks_completed_accepts_any_integer (v : Int) (now ts : String) :
    insertAccepted now tasksCols
      [none, some (.text "t"), some .null, some (.int v),
       some (.text ts), some (.text ts)] = true ∧
    insertAccepted now tasksCols
      [none, some (.text "t"), some .null, some .null,
       some (.text ts), some (.text ts)] = false ∧
    resolveInsertValue now
      ⟨"completed", "INTEGER", true, false, false, some (.intVal 0)⟩ none = .int 0 ∧
    insertAccepted now tasksCols
      [none, some (.text "t"), some .null, none,
       some (.text ts), some (.text ts)] = true :=
  ⟨rfl, rfl, rfl, rfl⟩

/-- C9: the metadata upsert has delete-and-reinsert replace semantics: when a
row for `version` already exists, the run's replacement row enters the table
with the fresh AUTOINCREMENT id (larger than the old id, since the sequence
bounds every existing id) and the run's `CURRENT_TIMESTAMP` default as
`created_at`, and the old row is gone — so id and created_at of the fixed
`app_info` rows are not stable across bootstrap runs. -/
theorem metadata_upsert_fresh_identity (db : DB) (now : String) (r : AppInfoRow)
    (hr : r ∈ db.appInfoRows) (hk : r.key = "version")
    (hseq : ∀ s2 ∈ db.appInfoRows, s2.id ≤ db.appInfoSeq) :
    (⟨db.appInfoSeq + 2, "version", .text "0.1.0", now⟩ : AppInfoRow) ∈
      (metadataUpsert now db).appInfoRows ∧
    r.id < db.appInfoSeq + 2 ∧
    r ∉ (metadataUpsert now db).appInfoRows := by
  have hv := metadata_rows_version db now
  refine ⟨?_, ?_, ?_⟩
  · have hmem : (⟨db.appInfoSeq + 2, "version", .text "0.1.0", now⟩ : AppInfoRow) ∈
        rowsForKey (metadataUpsert now db).appInfoRows "version" := by
      rw [hv]
      exact List.mem_singleton.mpr rfl
    unfold rowsForKey at hmem
    exact List.mem_of_mem_filter hmem
  · have := hseq r hr
    omega
  · intro hmem2
    have hin : r ∈ rowsForKey (metadataUpsert now db).appInfoRows "version" := by
      unfold rowsForKey
      exact List.mem_filter.mpr ⟨hmem2, by simp [hk]⟩
    rw [hv] at hin
    have hle := hseq r hr
    have heq2 : r = ⟨db.appInfoSeq + 2, "version", .text "0.1.0", now⟩ :=
      List.mem_singleton.mp hin
    rw [heq2] at hle
    simp at hle

theorem metadata_upsert_fresh_identity_witness :
    (⟨3, "version", .text "0.1.0", "2026-01-28T12:00:00Z"⟩ : AppInfoRow) ∈
      (metadataUpsert "2026-01-28T12:00:00Z"
        ⟨[], [], [], [⟨1, "version", .text "0.0.9", "2025-01-01 00:00:00"⟩], 1⟩).appInfoRows ∧
    (1 : Nat) < 3 ∧
    (⟨1, "version", .text "0.0.9", "2025-01-01 00:00:00"⟩ : AppInfoRow) ∉
      (metadataUpsert "2026-01-28T12:00:00Z"
        ⟨[], [], [], [⟨1, "version", .text "0.0.9", "2025-01-01 00:00:00"⟩], 1⟩).appInfoRows :=
  metadata_upsert_fresh_identity
    ⟨[], [], [], [⟨1, "version", .text "0.0.9", "2025-01-01 00:00:00"⟩], 1⟩
    "2026-01-28T12:00:00Z"
    ⟨1, "version", .text "0.0.9", "2025-01-01 00:00:00"⟩
    (by decide) rfl (by decide)

/-- C10: when the database file exists but the pre-flight probe fails,
`main` prints only the corruption warning and still proceeds: it reconnects
to the same file and performs the identical schema convergence and metadata
upsert it would with a healthy probe. -/
theorem corrupt_probe_warns_and_proceeds (db : DB) (now : String) :
    corruptWarning ∈ (runMain (some db) false now true true).warnings ∧
    (runMain (some db) false now true true).db =
      (runMain (some db) true now true true).db ∧
    (runMain (some db) false now true true).completed =
      (runMain (some db) true now true true).completed ∧
    ∀ db1, ensureSchemaRun db = .ok db1 →
      (runMain (some db) false now true true).db = metadataUpsert now db1 ∧
      (runMain (some db) false now true true).completed = true := by
  simp only [runMain, Option.getD_some]
  cases h : ensureSchemaRun db with
  | error e =>
    refine ⟨by simp, rfl, rfl, ?_⟩
    intro db1 h1
    cases h1
  | ok db1 =>
    refine ⟨by simp, rfl, rfl, ?_⟩
    intro db2 h2
    cases h2
    exact ⟨rfl, rfl⟩

theorem corrupt_probe_warns_and_proceeds_witness :
    corruptWarning ∈ (runMain (some DB.empty) false "2026-01-28T12:00:00Z" true true).warnings ∧
    (runMain (some DB.empty) false "2026-01-28T12:00:00Z" true true).db =
      metadataUpsert "2026-01-28T12:00:00Z" convergedFromEmpty ∧
    (runMain (some DB.empty) false "2026-01-28T12:00:00Z" true true).completed = true := by
  have h := corrupt_probe_warns_and_proceeds DB.empty "2026-01-28T12:00:00Z"
  exact ⟨h.1, (h.2.2.2 convergedFromEmpty (by decide)).1,
         (h.2.2.2 convergedFromEmpty (by decide)).2⟩
